import Mathlib

/-!
Shallow embedding of the `azure-extensions-cli` commands found in
`main.go`, `replicationstatus.go` and `unpublish.go`.

The program is a CLI wrapper over the Azure Service Management SDK.  We
model a command as a function from a flag context and an abstract outside
world to the finite trace of observable events it produces: stream writes
(logrus is configured in `init` to write to stderr; data output goes
through `os.Stdout`), certificate file reads, and remote API calls.
`log.Fatalf` terminates the process, so a fatal write ends the trace.

Vendor SDK operations whose code is not part of this repository
(`pem.Decode`, `pkcs12.ToPEM`, `NewClient`, `GetReplicationStatus`,
`UpdateExtension`, `WaitForOperation`, `json.MarshalIndent`,
`tablewriter` rendering) are abstract fields of the `World` structure;
the repository's own control flow around them is transcribed faithfully.
-/

/-- The two output streams of the process. -/
inductive OutStream where
  | stdout
  | stderr
deriving DecidableEq, Repr

/-- Observable events of a command run.  `write` covers both logrus
messages (stderr, per `init` in main.go) and data output (stdout);
`readCertFile` is the `ioutil.ReadFile` in `readCert`; the `call*`
events are the remote SDK invocations. -/
inductive Event where
  | write (s : OutStream) (msg : String)
  | readCertFile (path : String)
  | callGetReplicationStatus (ns name version : String)
  | callUpdateExtension (body : String)
  | callWaitForOperation (op : String)
deriving DecidableEq, Repr

abbrev Trace := List Event

/-- One entry of `ReplicationStatusResponse.Statuses`.  The struct itself
is declared in client code outside `src/`; the fields are the two used by
`replicationstatus.go`. -/
structure ReplicationStatus where
  Location : String
  Status : String
deriving DecidableEq, Repr

/-- Response of `GetReplicationStatus`, as used by `replicationstatus.go`. -/
structure ReplicationStatusResponse where
  Statuses : List ReplicationStatus
deriving DecidableEq, Repr

/-- Abstract model of everything outside the repository: the file system,
the vendor crypto and encoding libraries, and the remote Azure management
API.  PEM blocks are abstract handles (`Nat`), file contents are byte
lists (`List Nat`). -/
structure World where
  readFile : String → Except String (List Nat)
  pemDecode : List Nat → Option Nat
  pkcs12ToPEM : List Nat → String → Except String (List Nat)
  pemEncodeToMemory : Nat → List Nat
  newClient : String → String → List Nat → Except String Unit
  getReplicationStatus : String → String → String → Except String ReplicationStatusResponse
  updateExtension : String → Except String String
  waitForOperation : String → Except String Unit
  marshalIndentStatuses : List ReplicationStatus → Except String String
  renderTable : List String → List (List String) → String

/-- Model of `cli.Context` as the commands use it: `c.String fl` (empty string
when the flag is unset) and `c.Bool fl`. -/
structure Context where
  strings : String → String
  bools : String → Bool

/-- Flag name of `flNamespace` in main.go. -/
def flNamespace : String := "namespace"

/-- Flag name of `flName` in main.go. -/
def flName : String := "name"

/-- Flag name of `flVersion` in main.go. -/
def flVersion : String := "version"

/-- Flag name of `flMgtURL` in main.go. -/
def flMgtURL : String := "management-url"

/-- Flag name of `flSubsID` in main.go. -/
def flSubsID : String := "subscription-id"

/-- Flag name of `flSubsCert` in main.go. -/
def flSubsCert : String := "subscription-cert"

/-- Flag name of `flJSON` in main.go. -/
def flJSON : String := "json"

/-- Flag name of `flIsXMLExtension` in main.go. -/
def flIsXMLExtension : String := "is-xml-extension"

/-- The message of `log.Fatalf("argument %q must be provided", fl)`;
Go's `%q` wraps the name in double quotes. -/
def argMustBeProvided (fl : String) : String :=
  "argument \"" ++ fl ++ "\" must be provided"

/-- Model of `checkFlag` from main.go: returns the flag value, or logs a fatal
error (ending the run) when the value is empty. -/
def checkFlag (c : Context) (fl : String) : Trace × Option String :=
  if c.strings fl = "" then
    ([Event.write OutStream.stderr (argMustBeProvided fl)], none)
  else
    ([], some (c.strings fl))

/-- Model of `readCert` from main.go: read the file; if `pem.Decode` finds a PEM
block return the raw bytes; otherwise decode the bytes as PKCS#12 with
the empty password and concatenate the PEM encodings of the resulting
blocks into a fresh buffer. -/
def readCert (w : World) (certFile : String) : Trace × Except String (List Nat) :=
  match w.readFile certFile with
  | Except.error e => ([Event.readCertFile certFile], Except.error e)
  | Except.ok b =>
    match w.pemDecode b with
    | some _ => ([Event.readCertFile certFile], Except.ok b)
    | none =>
      match w.pkcs12ToPEM b "" with
      | Except.error e => ([Event.readCertFile certFile], Except.error e)
      | Except.ok pemBlocks =>
        ([Event.readCertFile certFile],
         Except.ok (pemBlocks.foldl (fun buf x => buf ++ w.pemEncodeToMemory x) []))

/-- Model of `mkClient` from main.go: read the certificate, then build the SDK
client; each failure is a `log.Fatalf`. -/
def mkClient (w : World) (mgtURL subsID certFile : String) : Trace × Option Unit :=
  match readCert w certFile with
  | (t, Except.error e) =>
    (t ++ [Event.write OutStream.stderr ("Cannot read certificate " ++ certFile ++ ": " ++ e)],
     none)
  | (t, Except.ok b) =>
    match w.newClient mgtURL subsID b with
    | Except.error e =>
      (t ++ [Event.write OutStream.stderr ("Cannot create client: " ++ e)], none)
    | Except.ok _ => (t, some ())

/-- Literal text of the unpublish manifest template before the Namespace
field action (unpublish.go lines 20-23). -/
def manifestLit0 : String :=
  "<?xml version=\"1.0\" encoding=\"utf-8\" ?>\n<ExtensionImage xmlns=\"http://schemas.microsoft.com/windowsazure\"  xmlns:i=\"http://www.w3.org/2001/XMLSchema-instance\">\n  <!-- WARNING: Ordering of fields matter in this file. -->\n  <ProviderNameSpace>"

/-- Literal template text between the Namespace and Name field actions. -/
def manifestLit1 : String := "</ProviderNameSpace>\n  <Type>"

/-- Literal template text between the Name and Version field actions. -/
def manifestLit2 : String := "</Type>\n  <Version>"

/-- Literal template text after the Version field action, through the
IsInternalExtension element (including its trailing newline). -/
def manifestLit3 : String := "</Version>\n  <IsInternalExtension>true</IsInternalExtension>\n"

/-- The IsJsonExtension element appended when `--is-xml-extension` is unset. -/
def manifestJsonElem : String := "<IsJsonExtension>true</IsJsonExtension>"

/-- The manifest produced by `unpublishVersion` (unpublish.go lines
19-44): the fixed template is assembled in a buffer — base text, then
the IsJsonExtension element when `isXMLExtension` is false, then the
closing tag — and executed by `text/template` against the struct holding
Namespace, Name, Version.  `text/template` parses the template into
literal chunks and field actions and emits them in order, inserting the
field values verbatim without rescanning, so the result is this
interleaving of the literal chunks with the three values. -/
def unpublishManifest (ns name version : String) (isXMLExtension : Bool) : String :=
  manifestLit0 ++ ns ++ manifestLit1 ++ name ++ manifestLit2 ++ version ++ manifestLit3 ++
    (if !isXMLExtension then manifestJsonElem else "") ++ "</ExtensionImage>"

/-- Model of `unpublishVersion` from unpublish.go: check namespace, name, version
(in the order of the struct literal), build the manifest, check
management-url, subscription-id, subscription-cert and build the client,
then call `UpdateExtension` and wait on the returned operation.
Template parse and execute cannot fail on this fixed template, so the
two `log.Fatalf` branches at lines 38 and 43 are unreachable and carry
no events. -/
def unpublishVersion (c : Context) (w : World) : Trace :=
  match checkFlag c flNamespace with
  | (t, none) => t
  | (_, some ns) =>
  match checkFlag c flName with
  | (t, none) => t
  | (_, some name) =>
  match checkFlag c flVersion with
  | (t, none) => t
  | (_, some version) =>
  let isXMLExtension := c.bools flIsXMLExtension
  let body := unpublishManifest ns name version isXMLExtension
  match checkFlag c flMgtURL with
  | (t, none) => t
  | (_, some mgtURL) =>
  match checkFlag c flSubsID with
  | (t, none) => t
  | (_, some subsID) =>
  match checkFlag c flSubsCert with
  | (t, none) => t
  | (_, some certFile) =>
  match mkClient w mgtURL subsID certFile with
  | (t, none) => t
  | (t, some _) =>
  t ++ [Event.callUpdateExtension body] ++
  match w.updateExtension body with
  | Except.error e => [Event.write OutStream.stderr ("UpdateExtension failed: " ++ e)]
  | Except.ok op =>
    [Event.write OutStream.stderr "UpdateExtension operation started.",
     Event.callWaitForOperation op] ++
    match w.waitForOperation op with
    | Except.error e => [Event.write OutStream.stderr ("UpdateExtension failed: " ++ e)]
    | Except.ok _ => [Event.write OutStream.stderr "UpdateExtension operation finished."]

/-- Model of `printAsJSON` from replicationstatus.go: marshal `r.Statuses` with
`json.MarshalIndent`; on failure return an error (written by the caller
via `log.Fatal`), on success write the bytes to stdout. -/
def printAsJSON (w : World) (r : ReplicationStatusResponse) : Trace × Option String :=
  match w.marshalIndentStatuses r.Statuses with
  | Except.error e => ([], some ("failed to format as json: " ++ e))
  | Except.ok b => ([Event.write OutStream.stdout b], none)

/-- Model of `printAsTable` from replicationstatus.go: a two-column table with
header Location/Status whose rows are the `(s.Location, s.Status)` pairs
of `r.Statuses` appended in order, rendered to stdout. -/
def printAsTable (w : World) (r : ReplicationStatusResponse) : Trace × Option String :=
  ([Event.write OutStream.stdout
      (w.renderTable ["Location", "Status"]
        (r.Statuses.map fun s => [s.Location, s.Status]))],
   none)

/-- Model of `replicationStatus` from replicationstatus.go: line 14 evaluates the
three `checkFlag` arguments and calls `mkClient` (which reads the
certificate) BEFORE line 15 checks namespace, name and version; then it
fetches the replication status and prints it as JSON when `--json` is
set, as a table otherwise; a formatting error is a `log.Fatal`. -/
def replicationStatus (c : Context) (w : World) : Trace :=
  match checkFlag c flMgtURL with
  | (t, none) => t
  | (_, some mgtURL) =>
  match checkFlag c flSubsID with
  | (t, none) => t
  | (_, some subsID) =>
  match checkFlag c flSubsCert with
  | (t, none) => t
  | (_, some certFile) =>
  match mkClient w mgtURL subsID certFile with
  | (t, none) => t
  | (tc, some _) =>
  match checkFlag c flNamespace with
  | (t, none) => tc ++ t
  | (_, some ns) =>
  match checkFlag c flName with
  | (t, none) => tc ++ t
  | (_, some name) =>
  match checkFlag c flVersion with
  | (t, none) => tc ++ t
  | (_, some version) =>
  let jsonFlag := c.bools flJSON
  tc ++ [Event.write OutStream.stderr "Requesting replication status.",
         Event.callGetReplicationStatus ns name version] ++
  match w.getReplicationStatus ns name version with
  | Except.error e => [Event.write OutStream.stderr ("Cannot fetch replication status: " ++ e)]
  | Except.ok rs =>
    let pr := if jsonFlag then printAsJSON w rs else printAsTable w rs
    match pr.2 with
    | some e => pr.1 ++ [Event.write OutStream.stderr e]
    | none => pr.1

/-- Remote HTTP interaction events (SDK calls against the management
endpoint). -/
def isRemoteCall : Event → Bool
  | Event.callGetReplicationStatus _ _ _ => true
  | Event.callUpdateExtension _ => true
  | Event.callWaitForOperation _ => true
  | _ => false

/-- Events that poll an asynchronous operation. -/
def isWaitCall : Event → Bool
  | Event.callWaitForOperation _ => true
  | _ => false

/-- Certificate file reads. -/
def isCertRead : Event → Bool
  | Event.readCertFile _ => true
  | _ => false

/-- The payloads a trace writes to stdout, in order. -/
def stdoutWrites (t : Trace) : List String :=
  t.filterMap fun e =>
    match e with
    | Event.write OutStream.stdout s => some s
    | _ => none

theorem readCert_trace (w : World) (certFile : String) :
    (readCert w certFile).1 = [Event.readCertFile certFile] := by
  unfold readCert
  repeat' split
  all_goals rfl

theorem mkClient_mem (w : World) (mgtURL subsID certFile : String) (e : Event)
    (he : e ∈ (mkClient w mgtURL subsID certFile).1) :
    e = Event.readCertFile certFile ∨ ∃ m, e = Event.write OutStream.stderr m := by
  unfold mkClient at he
  split at he
  case _ t e' heq =>
    have ht : t = [Event.readCertFile certFile] := by
      have := readCert_trace w certFile
      rw [heq] at this
      exact this
    subst ht
    simp at he
    rcases he with he | he
    · exact Or.inl he
    · exact Or.inr ⟨_, he⟩
  case _ t b heq =>
    have ht : t = [Event.readCertFile certFile] := by
      have := readCert_trace w certFile
      rw [heq] at this
      exact this
    subst ht
    split at he
    · simp at he
      rcases he with he | he
      · exact Or.inl he
      · exact Or.inr ⟨_, he⟩
    · simp at he
      exact Or.inl he

theorem mkClient_pem_ok (w : World) (mgtURL subsID certFile : String) (b : List Nat) (k : Nat)
    (hrf : w.readFile certFile = Except.ok b) (hp : w.pemDecode b = some k)
    (hnc : w.newClient mgtURL subsID b = Except.ok ()) :
    mkClient w mgtURL subsID certFile = ([Event.readCertFile certFile], some ()) := by
  simp [mkClient, readCert, hrf, hp, hnc]

theorem checkFlag_empty (c : Context) (fl : String) (h : c.strings fl = "") :
    checkFlag c fl = ([Event.write OutStream.stderr (argMustBeProvided fl)], none) := by
  simp [checkFlag, h]

theorem checkFlag_nonempty (c : Context) (fl : String) (h : c.strings fl ≠ "") :
    checkFlag c fl = ([], some (c.strings fl)) := by
  simp [checkFlag, h]

theorem checkFlag_none (c : Context) (fl : String) (t : Trace)
    (h : checkFlag c fl = (t, none)) :
    t = [Event.write OutStream.stderr (argMustBeProvided fl)] := by
  unfold checkFlag at h
  split at h
  · exact (Prod.mk.injEq _ _ _ _ ▸ h).1.symm
  · simp at h

theorem checkFlag_some (c : Context) (fl : String) (t : Trace) (v : String)
    (h : checkFlag c fl = (t, some v)) : v = c.strings fl ∧ t = [] := by
  unfold checkFlag at h
  split at h
  · simp at h
  · have := (Prod.mk.injEq _ _ _ _ ▸ h)
    exact ⟨(Option.some.injEq _ _ ▸ this.2).symm, this.1.symm⟩

theorem mkClient_some_trace (w : World) (mgtURL subsID certFile : String) (t : Trace)
    (h : mkClient w mgtURL subsID certFile = (t, some ())) :
    t = [Event.readCertFile certFile] := by
  unfold mkClient at h
  split at h
  · simp at h
  case _ t' b heq =>
    have ht : t' = [Event.readCertFile certFile] := by
      have h2 := readCert_trace w certFile
      rw [heq] at h2
      exact h2
    split at h
    · simp at h
    · have := (Prod.mk.injEq _ _ _ _ ▸ h).1
      rw [← this, ht]

theorem unpublishVersion_run (c : Context) (w : World)
    (hns : c.strings flNamespace ≠ "") (hnm : c.strings flName ≠ "")
    (hv : c.strings flVersion ≠ "") (hm : c.strings flMgtURL ≠ "")
    (hs : c.strings flSubsID ≠ "") (hc : c.strings flSubsCert ≠ "")
    (hmk : mkClient w (c.strings flMgtURL) (c.strings flSubsID) (c.strings flSubsCert) =
      ([Event.readCertFile (c.strings flSubsCert)], some ())) :
    unpublishVersion c w =
      [Event.readCertFile (c.strings flSubsCert),
       Event.callUpdateExtension
         (unpublishManifest (c.strings flNamespace) (c.strings flName)
           (c.strings flVersion) (c.bools flIsXMLExtension))] ++
      (match w.updateExtension
              (unpublishManifest (c.strings flNamespace) (c.strings flName)
                (c.strings flVersion) (c.bools flIsXMLExtension)) with
       | Except.error e => [Event.write OutStream.stderr ("UpdateExtension failed: " ++ e)]
       | Except.ok op =>
         [Event.write OutStream.stderr "UpdateExtension operation started.",
          Event.callWaitForOperation op] ++
         (match w.waitForOperation op with
          | Except.error e => [Event.write OutStream.stderr ("UpdateExtension failed: " ++ e)]
          | Except.ok _ =>
            [Event.write OutStream.stderr "UpdateExtension operation finished."])) := by
  unfold unpublishVersion
  rw [checkFlag_nonempty c flNamespace hns, checkFlag_nonempty c flName hnm,
      checkFlag_nonempty c flVersion hv, checkFlag_nonempty c flMgtURL hm,
      checkFlag_nonempty c flSubsID hs, checkFlag_nonempty c flSubsCert hc]
  dsimp only
  rw [hmk]
  simp

theorem replicationStatus_run (c : Context) (w : World)
    (hm : c.strings flMgtURL ≠ "") (hs : c.strings flSubsID ≠ "")
    (hc : c.strings flSubsCert ≠ "") (hns : c.strings flNamespace ≠ "")
    (hnm : c.strings flName ≠ "") (hv : c.strings flVersion ≠ "")
    (hmk : mkClient w (c.strings flMgtURL) (c.strings flSubsID) (c.strings flSubsCert) =
      ([Event.readCertFile (c.strings flSubsCert)], some ())) :
    replicationStatus c w =
      [Event.readCertFile (c.strings flSubsCert),
       Event.write OutStream.stderr "Requesting replication status.",
       Event.callGetReplicationStatus (c.strings flNamespace) (c.strings flName)
         (c.strings flVersion)] ++
      (match w.getReplicationStatus (c.strings flNamespace) (c.strings flName)
              (c.strings flVersion) with
       | Except.error e =>
         [Event.write OutStream.stderr ("Cannot fetch replication status: " ++ e)]
       | Except.ok rs =>
         if c.bools flJSON then
           match w.marshalIndentStatuses rs.Statuses with
           | Except.error e =>
             [Event.write OutStream.stderr ("failed to format as json: " ++ e)]
           | Except.ok s => [Event.write OutStream.stdout s]
         else
           [Event.write OutStream.stdout
             (w.renderTable ["Location", "Status"]
               (rs.Statuses.map fun s => [s.Location, s.Status]))]) := by
  unfold replicationStatus
  rw [checkFlag_nonempty c flMgtURL hm, checkFlag_nonempty c flSubsID hs,
      checkFlag_nonempty c flSubsCert hc]
  dsimp only
  rw [hmk, checkFlag_nonempty c flNamespace hns, checkFlag_nonempty c flName hnm,
      checkFlag_nonempty c flVersion hv]
  dsimp only
  rcases hg : w.getReplicationStatus (c.strings flNamespace) (c.strings flName)
      (c.strings flVersion) with e | rs
  · simp [hg]
  · by_cases hj : c.bools flJSON
    · rcases hms : w.marshalIndentStatuses rs.Statuses with e | s <;>
        simp [hg, hj, printAsJSON, hms]
    · simp [hg, hj, printAsTable]

theorem unpublish_mem_cases (c : Context) (w : World) (e : Event)
    (he : e ∈ unpublishVersion c w) :
    e = Event.readCertFile (c.strings flSubsCert) ∨
    (∃ m, e = Event.write OutStream.stderr m) ∨
    e = Event.callUpdateExtension
          (unpublishManifest (c.strings flNamespace) (c.strings flName)
            (c.strings flVersion) (c.bools flIsXMLExtension)) ∨
    (∃ op, e = Event.callWaitForOperation op ∧
      w.updateExtension
        (unpublishManifest (c.strings flNamespace) (c.strings flName)
          (c.strings flVersion) (c.bools flIsXMLExtension)) = Except.ok op) := by
  unfold unpublishVersion at he
  by_cases h1 : c.strings flNamespace = ""
  · rw [checkFlag_empty c flNamespace h1] at he
    simp at he
    exact Or.inr (Or.inl ⟨_, he⟩)
  rw [checkFlag_nonempty c flNamespace h1] at he
  dsimp only at he
  by_cases h2 : c.strings flName = ""
  · rw [checkFlag_empty c flName h2] at he
    simp at he
    exact Or.inr (Or.inl ⟨_, he⟩)
  rw [checkFlag_nonempty c flName h2] at he
  dsimp only at he
  by_cases h3 : c.strings flVersion = ""
  · rw [checkFlag_empty c flVersion h3] at he
    simp at he
    exact Or.inr (Or.inl ⟨_, he⟩)
  rw [checkFlag_nonempty c flVersion h3] at he
  dsimp only at he
  by_cases h4 : c.strings flMgtURL = ""
  · rw [checkFlag_empty c flMgtURL h4] at he
    simp at he
    exact Or.inr (Or.inl ⟨_, he⟩)
  rw [checkFlag_nonempty c flMgtURL h4] at he
  dsimp only at he
  by_cases h5 : c.strings flSubsID = ""
  · rw [checkFlag_empty c flSubsID h5] at he
    simp at he
    exact Or.inr (Or.inl ⟨_, he⟩)
  rw [checkFlag_nonempty c flSubsID h5] at he
  dsimp only at he
  by_cases h6 : c.strings flSubsCert = ""
  · rw [checkFlag_empty c flSubsCert h6] at he
    simp at he
    exact Or.inr (Or.inl ⟨_, he⟩)
  rw [checkFlag_nonempty c flSubsCert h6] at he
  dsimp only at he
  rcases hmk : mkClient w (c.strings flMgtURL) (c.strings flSubsID) (c.strings flSubsCert)
    with ⟨t, r⟩
  rw [hmk] at he
  rcases r with _ | u
  · dsimp only at he
    rcases mkClient_mem w (c.strings flMgtURL) (c.strings flSubsID) (c.strings flSubsCert) e
        (by rw [hmk]; exact he) with h' | ⟨m, h'⟩
    · exact Or.inl h'
    · exact Or.inr (Or.inl ⟨m, h'⟩)
  · dsimp only at he
    have ht : t = [Event.readCertFile (c.strings flSubsCert)] :=
      mkClient_some_trace w _ _ _ t hmk
    subst ht
    rcases hu : w.updateExtension
        (unpublishManifest (c.strings flNamespace) (c.strings flName)
          (c.strings flVersion) (c.bools flIsXMLExtension)) with e' | op
    · rw [hu] at he
      simp at he
      rcases he with he | he | he
      · exact Or.inl he
      · exact Or.inr (Or.inr (Or.inl he))
      · exact Or.inr (Or.inl ⟨_, he⟩)
    · rw [hu] at he
      dsimp only at he
      rcases hwo : w.waitForOperation op with e2 | u2 <;> rw [hwo] at he <;> simp at he <;>
        rcases he with he | he | he | he | he
      · exact Or.inl he
      · exact Or.inr (Or.inr (Or.inl he))
      · exact Or.inr (Or.inl ⟨_, he⟩)
      · exact Or.inr (Or.inr (Or.inr ⟨op, he, rfl⟩))
      · exact Or.inr (Or.inl ⟨_, he⟩)
      · exact Or.inl he
      · exact Or.inr (Or.inr (Or.inl he))
      · exact Or.inr (Or.inl ⟨_, he⟩)
      · exact Or.inr (Or.inr (Or.inr ⟨op, he, rfl⟩))
      · exact Or.inr (Or.inl ⟨_, he⟩)

/-- A flag assignment with all six required string flags set. -/
def sampleStrings : String → String := fun fl =>
  if fl = flNamespace then "Microsoft.OSTCExtensions"
  else if fl = flName then "FooExtension"
  else if fl = flVersion then "1.0.0"
  else if fl = flMgtURL then "https://management.core.windows.net/"
  else if fl = flSubsID then "sub-123"
  else if fl = flSubsCert then "cert.pem"
  else ""

/-- A context with every required flag set and every boolean flag unset. -/
def sampleCtx : Context := ⟨sampleStrings, fun _ => false⟩

/-- The same flags with `--json` set. -/
def sampleCtxJSON : Context := ⟨sampleStrings, fun fl => fl == flJSON⟩

/-- The same flags with `--namespace` missing. -/
def noNamespaceCtx : Context :=
  ⟨fun fl => if fl = flNamespace then "" else sampleStrings fl, fun _ => false⟩

/-- The same flags with `--management-url` missing. -/
def noMgtURLCtx : Context :=
  ⟨fun fl => if fl = flMgtURL then "" else sampleStrings fl, fun _ => false⟩

/-- A two-region replication status response. -/
def sampleRS : ReplicationStatusResponse :=
  ⟨[⟨"Japan East", "Completed"⟩, ⟨"West US", "InProgress"⟩]⟩

/-- A world in which every external operation succeeds. -/
def sampleWorld : World where
  readFile := fun _ => Except.ok [1, 2, 3]
  pemDecode := fun _ => some 0
  pkcs12ToPEM := fun _ _ => Except.ok []
  pemEncodeToMemory := fun _ => []
  newClient := fun _ _ _ => Except.ok ()
  getReplicationStatus := fun _ _ _ => Except.ok sampleRS
  updateExtension := fun _ => Except.ok "op-1"
  waitForOperation := fun _ => Except.ok ()
  marshalIndentStatuses := fun _ => Except.ok "json-payload"
  renderTable := fun _ _ => "rendered-table"

/-- C1: every request body that unpublish-version passes to
`UpdateExtension` is the ExtensionImage manifest whose ProviderNameSpace,
Type and Version elements contain exactly the namespace, name and version
values supplied to the command. -/
theorem c1_unpublish_request_body (c : Context) (w : World) (body : String)
    (h : Event.callUpdateExtension body ∈ unpublishVersion c w) :
    body =
      manifestLit0 ++ c.strings flNamespace ++ "</ProviderNameSpace>\n  <Type>" ++
        c.strings flName ++ "</Type>\n  <Version>" ++ c.strings flVersion ++
        "</Version>\n  <IsInternalExtension>true</IsInternalExtension>\n" ++
        (if c.bools flIsXMLExtension then "" else "<IsJsonExtension>true</IsJsonExtension>") ++
        "</ExtensionImage>" := by
  rcases unpublish_mem_cases c w _ h with h' | ⟨m, h'⟩ | h' | ⟨op, h', _⟩
  · simp at h'
  · simp at h'
  · have hb : body =
        unpublishManifest (c.strings flNamespace) (c.strings flName)
          (c.strings flVersion) (c.bools flIsXMLExtension) := by
      injection h'
    rw [hb]
    cases hx : c.bools flIsXMLExtension <;>
      simp [unpublishManifest, manifestLit1, manifestLit2, manifestLit3, manifestJsonElem, hx]
  · simp at h'

theorem c1_unpublish_request_body_witness :
    unpublishManifest (sampleCtx.strings flNamespace) (sampleCtx.strings flName)
        (sampleCtx.strings flVersion) (sampleCtx.bools flIsXMLExtension) =
      manifestLit0 ++ sampleCtx.strings flNamespace ++ "</ProviderNameSpace>\n  <Type>" ++
        sampleCtx.strings flName ++ "</Type>\n  <Version>" ++ sampleCtx.strings flVersion ++
        "</Version>\n  <IsInternalExtension>true</IsInternalExtension>\n" ++
        (if sampleCtx.bools flIsXMLExtension then ""
         else "<IsJsonExtension>true</IsJsonExtension>") ++
        "</ExtensionImage>" :=
  c1_unpublish_request_body sampleCtx sampleWorld _ (by
    rw [unpublishVersion_run sampleCtx sampleWorld (by decide) (by decide) (by decide)
        (by decide) (by decide) (by decide) (by rfl)]
    simp [sampleWorld])

/-- C9: the unpublish manifest always carries
IsInternalExtension set to true; it carries an IsJsonExtension element
(set to true) exactly when the `--is-xml-extension` flag is unset; and the
elements appear in the order ProviderNameSpace, Type, Version,
IsInternalExtension, then (when present) IsJsonExtension before the
closing tag. -/
theorem c9_manifest_internal_and_json (ns name version : String) :
    (unpublishManifest ns name version true =
       manifestLit0 ++ ns ++ "</ProviderNameSpace>\n  <Type>" ++ name ++
         "</Type>\n  <Version>" ++ version ++
         "</Version>\n  <IsInternalExtension>true</IsInternalExtension>\n" ++
         "</ExtensionImage>") ∧
    (unpublishManifest ns name version false =
       manifestLit0 ++ ns ++ "</ProviderNameSpace>\n  <Type>" ++ name ++
         "</Type>\n  <Version>" ++ version ++
         "</Version>\n  <IsInternalExtension>true</IsInternalExtension>\n" ++
         "<IsJsonExtension>true</IsJsonExtension>" ++ "</ExtensionImage>") := by
  constructor <;>
    simp [unpublishManifest, manifestLit1, manifestLit2, manifestLit3, manifestJsonElem]

theorem foldl_append_join {α β : Type} (f : α → List β) (l : List α) (acc : List β) :
    l.foldl (fun buf x => buf ++ f x) acc = acc ++ (l.map f).flatten := by
  induction l generalizing acc with
  | nil => simp
  | cons a l ih => simp [ih, List.append_assoc]

/-- C8: `readCert` returns the raw file bytes when a PEM block decodes;
otherwise it decodes the bytes as PKCS#12 with the empty password and
returns the concatenation of the PEM encodings of all resulting blocks;
it fails exactly when the file read fails or the PKCS#12 decode fails. -/
theorem c8_readCert_behavior (w : World) (certFile : String) :
    (∀ e, w.readFile certFile = Except.error e →
      readCert w certFile = ([Event.readCertFile certFile], Except.error e)) ∧
    (∀ b k, w.readFile certFile = Except.ok b → w.pemDecode b = some k →
      readCert w certFile = ([Event.readCertFile certFile], Except.ok b)) ∧
    (∀ b e, w.readFile certFile = Except.ok b → w.pemDecode b = none →
      w.pkcs12ToPEM b "" = Except.error e →
      readCert w certFile = ([Event.readCertFile certFile], Except.error e)) ∧
    (∀ b blocks, w.readFile certFile = Except.ok b → w.pemDecode b = none →
      w.pkcs12ToPEM b "" = Except.ok blocks →
      readCert w certFile =
        ([Event.readCertFile certFile],
         Except.ok (blocks.map w.pemEncodeToMemory).flatten)) ∧
    ((∃ e, (readCert w certFile).2 = Except.error e) ↔
      ((∃ e, w.readFile certFile = Except.error e) ∨
       (∃ b, w.readFile certFile = Except.ok b ∧ w.pemDecode b = none ∧
         ∃ e, w.pkcs12ToPEM b "" = Except.error e))) := by
  refine ⟨?_, ?_, ?_, ?_, ?_, ?_⟩
  · intro e he
    simp [readCert, he]
  · intro b k hb hk
    simp [readCert, hb, hk]
  · intro b e hb hk hp
    simp [readCert, hb, hk, hp]
  · intro b blocks hb hk hp
    simp [readCert, hb, hk, hp, foldl_append_join]
  · rintro ⟨e, he⟩
    rcases hb : w.readFile certFile with e' | b
    · exact Or.inl ⟨e', rfl⟩
    · rcases hk : w.pemDecode b with _ | k
      · rcases hp : w.pkcs12ToPEM b "" with e2 | blocks
        · exact Or.inr ⟨b, rfl, hk, e2, hp⟩
        · simp [readCert, hb, hk, hp] at he
      · simp [readCert, hb, hk] at he
  · rintro (⟨e, he⟩ | ⟨b, hb, hk, e, hp⟩)
    · exact ⟨e, by simp [readCert, he]⟩
    · exact ⟨e, by simp [readCert, hb, hk, hp]⟩

/-- World whose certificate file holds no decodable PEM block, so the
PKCS#12 path runs. -/
def pkcsWorld : World := { sampleWorld with
  pemDecode := fun _ => none
  pkcs12ToPEM := fun _ _ => Except.ok [4, 5]
  pemEncodeToMemory := fun n => [n, n] }

theorem c8_readCert_behavior_witness :
    readCert sampleWorld "cert.pem" =
      ([Event.readCertFile "cert.pem"], Except.ok [1, 2, 3]) ∧
    readCert pkcsWorld "cert.pfx" =
      ([Event.readCertFile "cert.pfx"], Except.ok [4, 4, 5, 5]) :=
  ⟨(c8_readCert_behavior sampleWorld "cert.pem").2.1 [1, 2, 3] 0 rfl rfl,
   by
     have h := (c8_readCert_behavior pkcsWorld "cert.pfx").2.2.2.1 [1, 2, 3] [4, 5] rfl rfl rfl
     simpa using h⟩

/-- C2: when a remote API call fails, the command writes a single fatal
message that carries the remote error verbatim and terminates: the trace
ends at that message, with no retry, recovery or further events.  The
three remote failure points of the two commands in scope are
`GetReplicationStatus` (replication-status), and `UpdateExtension` and
`WaitForOperation` (unpublish-version). -/
theorem c2_remote_errors_surface_verbatim (c : Context) (w : World)
    (hm : c.strings flMgtURL ≠ "") (hs : c.strings flSubsID ≠ "")
    (hc : c.strings flSubsCert ≠ "") (hns : c.strings flNamespace ≠ "")
    (hnm : c.strings flName ≠ "") (hv : c.strings flVersion ≠ "")
    (hmk : mkClient w (c.strings flMgtURL) (c.strings flSubsID) (c.strings flSubsCert) =
      ([Event.readCertFile (c.strings flSubsCert)], some ())) :
    (∀ e, w.getReplicationStatus (c.strings flNamespace) (c.strings flName)
        (c.strings flVersion) = Except.error e →
      replicationStatus c w =
        [Event.readCertFile (c.strings flSubsCert),
         Event.write OutStream.stderr "Requesting replication status.",
         Event.callGetReplicationStatus (c.strings flNamespace) (c.strings flName)
           (c.strings flVersion),
         Event.write OutStream.stderr ("Cannot fetch replication status: " ++ e)]) ∧
    (∀ e, w.updateExtension
        (unpublishManifest (c.strings flNamespace) (c.strings flName)
          (c.strings flVersion) (c.bools flIsXMLExtension)) = Except.error e →
      unpublishVersion c w =
        [Event.readCertFile (c.strings flSubsCert),
         Event.callUpdateExtension
           (unpublishManifest (c.strings flNamespace) (c.strings flName)
             (c.strings flVersion) (c.bools flIsXMLExtension)),
         Event.write OutStream.stderr ("UpdateExtension failed: " ++ e)]) ∧
    (∀ op e, w.updateExtension
        (unpublishManifest (c.strings flNamespace) (c.strings flName)
          (c.strings flVersion) (c.bools flIsXMLExtension)) = Except.ok op →
      w.waitForOperation op = Except.error e →
      unpublishVersion c w =
        [Event.readCertFile (c.strings flSubsCert),
         Event.callUpdateExtension
           (unpublishManifest (c.strings flNamespace) (c.strings flName)
             (c.strings flVersion) (c.bools flIsXMLExtension)),
         Event.write OutStream.stderr "UpdateExtension operation started.",
         Event.callWaitForOperation op,
         Event.write OutStream.stderr ("UpdateExtension failed: " ++ e)]) := by
  refine ⟨?_, ?_, ?_⟩
  · intro e hg
    rw [replicationStatus_run c w hm hs hc hns hnm hv hmk, hg]
    simp
  · intro e hu
    rw [unpublishVersion_run c w hns hnm hv hm hs hc hmk, hu]
    simp
  · intro op e hu hw
    rw [unpublishVersion_run c w hns hnm hv hm hs hc hmk, hu]
    dsimp only
    rw [hw]
    simp

/-- World in which fetching the replication status fails. -/
def getErrWorld : World :=
  { sampleWorld with getReplicationStatus := fun _ _ _ => Except.error "fetch-err" }

/-- World in which `UpdateExtension` fails. -/
def updateErrWorld : World :=
  { sampleWorld with updateExtension := fun _ => Except.error "update-err" }

/-- World in which `WaitForOperation` fails. -/
def waitErrWorld : World :=
  { sampleWorld with waitForOperation := fun _ => Except.error "wait-err" }

theorem c2_remote_errors_surface_verbatim_witness :
    replicationStatus sampleCtx getErrWorld =
      [Event.readCertFile (sampleCtx.strings flSubsCert),
       Event.write OutStream.stderr "Requesting replication status.",
       Event.callGetReplicationStatus (sampleCtx.strings flNamespace)
         (sampleCtx.strings flName) (sampleCtx.strings flVersion),
       Event.write OutStream.stderr ("Cannot fetch replication status: " ++ "fetch-err")] ∧
    unpublishVersion sampleCtx updateErrWorld =
      [Event.readCertFile (sampleCtx.strings flSubsCert),
       Event.callUpdateExtension
         (unpublishManifest (sampleCtx.strings flNamespace) (sampleCtx.strings flName)
           (sampleCtx.strings flVersion) (sampleCtx.bools flIsXMLExtension)),
       Event.write OutStream.stderr ("UpdateExtension failed: " ++ "update-err")] ∧
    unpublishVersion sampleCtx waitErrWorld =
      [Event.readCertFile (sampleCtx.strings flSubsCert),
       Event.callUpdateExtension
         (unpublishManifest (sampleCtx.strings flNamespace) (sampleCtx.strings flName)
           (sampleCtx.strings flVersion) (sampleCtx.bools flIsXMLExtension)),
       Event.write OutStream.stderr "UpdateExtension operation started.",
       Event.callWaitForOperation "op-1",
       Event.write OutStream.stderr ("UpdateExtension failed: " ++ "wait-err")] :=
  ⟨(c2_remote_errors_surface_verbatim sampleCtx getErrWorld (by decide) (by decide) (by decide)
      (by decide) (by decide) (by decide) rfl).1 "fetch-err" rfl,
   (c2_remote_errors_surface_verbatim sampleCtx updateErrWorld (by decide) (by decide) (by decide)
      (by decide) (by decide) (by decide) rfl).2.1 "update-err" rfl,
   (c2_remote_errors_surface_verbatim sampleCtx waitErrWorld (by decide) (by decide) (by decide)
      (by decide) (by decide) (by decide) rfl).2.2 "op-1" "wait-err" rfl rfl⟩

/-- C3: for a successfully fetched replication status response the
command prints exactly one payload to stdout: the indented JSON
marshalling of the statuses when `--json` is set, and the rendered
two-column table otherwise. -/
theorem c3_json_or_table (c : Context) (w : World) (rs : ReplicationStatusResponse)
    (hm : c.strings flMgtURL ≠ "") (hs : c.strings flSubsID ≠ "")
    (hc : c.strings flSubsCert ≠ "") (hns : c.strings flNamespace ≠ "")
    (hnm : c.strings flName ≠ "") (hv : c.strings flVersion ≠ "")
    (hmk : mkClient w (c.strings flMgtURL) (c.strings flSubsID) (c.strings flSubsCert) =
      ([Event.readCertFile (c.strings flSubsCert)], some ()))
    (hg : w.getReplicationStatus (c.strings flNamespace) (c.strings flName)
      (c.strings flVersion) = Except.ok rs) :
    (∀ s, c.bools flJSON = true → w.marshalIndentStatuses rs.Statuses = Except.ok s →
      replicationStatus c w =
        [Event.readCertFile (c.strings flSubsCert),
         Event.write OutStream.stderr "Requesting replication status.",
         Event.callGetReplicationStatus (c.strings flNamespace) (c.strings flName)
           (c.strings flVersion),
         Event.write OutStream.stdout s]) ∧
    (c.bools flJSON = false →
      replicationStatus c w =
        [Event.readCertFile (c.strings flSubsCert),
         Event.write OutStream.stderr "Requesting replication status.",
         Event.callGetReplicationStatus (c.strings flNamespace) (c.strings flName)
           (c.strings flVersion),
         Event.write OutStream.stdout
           (w.renderTable ["Location", "Status"]
             (rs.Statuses.map fun s => [s.Location, s.Status]))]) := by
  constructor
  · intro s hj hms
    rw [replicationStatus_run c w hm hs hc hns hnm hv hmk, hg]
    simp [hj, hms]
  · intro hj
    rw [replicationStatus_run c w hm hs hc hns hnm hv hmk, hg]
    simp [hj]

theorem c3_json_or_table_witness :
    replicationStatus sampleCtxJSON sampleWorld =
      [Event.readCertFile (sampleCtxJSON.strings flSubsCert),
       Event.write OutStream.stderr "Requesting replication status.",
       Event.callGetReplicationStatus (sampleCtxJSON.strings flNamespace)
         (sampleCtxJSON.strings flName) (sampleCtxJSON.strings flVersion),
       Event.write OutStream.stdout "json-payload"] ∧
    replicationStatus sampleCtx sampleWorld =
      [Event.readCertFile (sampleCtx.strings flSubsCert),
       Event.write OutStream.stderr "Requesting replication status.",
       Event.callGetReplicationStatus (sampleCtx.strings flNamespace)
         (sampleCtx.strings flName) (sampleCtx.strings flVersion),
       Event.write OutStream.stdout
         (sampleWorld.renderTable ["Location", "Status"]
           (sampleRS.Statuses.map fun s => [s.Location, s.Status]))] :=
  ⟨(c3_json_or_table sampleCtxJSON sampleWorld sampleRS (by decide) (by decide) (by decide)
      (by decide) (by decide) (by decide) rfl rfl).1 "json-payload" rfl rfl,
   (c3_json_or_table sampleCtx sampleWorld sampleRS (by decide) (by decide) (by decide)
      (by decide) (by decide) (by decide) rfl rfl).2 rfl⟩

/-- C6: the printers apply no transformation, filtering or reordering:
the table rows are exactly the (Location, Status) pairs of the response's
Statuses list in order, and the JSON payload is the marshalling of that
same Statuses list. -/
theorem c6_formatting_only (w : World) (r : ReplicationStatusResponse) :
    (printAsTable w r).1 =
      [Event.write OutStream.stdout
        (w.renderTable ["Location", "Status"]
          (r.Statuses.map fun s => [s.Location, s.Status]))] ∧
    (printAsTable w r).2 = none ∧
    (∀ s, w.marshalIndentStatuses r.Statuses = Except.ok s →
      (printAsJSON w r).1 = [Event.write OutStream.stdout s] ∧ (printAsJSON w r).2 = none) := by
  refine ⟨rfl, rfl, ?_⟩
  intro s hms
  constructor <;> simp [printAsJSON, hms]

theorem c6_formatting_only_witness :
    (printAsTable sampleWorld sampleRS).1 =
      [Event.write OutStream.stdout
        (sampleWorld.renderTable ["Location", "Status"]
          (sampleRS.Statuses.map fun s => [s.Location, s.Status]))] ∧
    (printAsJSON sampleWorld sampleRS).1 =
      [Event.write OutStream.stdout "json-payload"] :=
  ⟨(c6_formatting_only sampleWorld sampleRS).1,
   ((c6_formatting_only sampleWorld sampleRS).2.2 "json-payload" rfl).1⟩

/-- C5: remote calls are sequential and the poll is guarded: a
`WaitForOperation` event occurs only after an `UpdateExtension` request
that returned successfully, its operation id is exactly the id that
request returned, and nothing after the poll is another remote call. -/
theorem c5_wait_only_after_update (c : Context) (w : World) (op : String)
    (h : Event.callWaitForOperation op ∈ unpublishVersion c w) :
    ∃ body t,
      w.updateExtension body = Except.ok op ∧
      unpublishVersion c w =
        [Event.readCertFile (c.strings flSubsCert),
         Event.callUpdateExtension body,
         Event.write OutStream.stderr "UpdateExtension operation started.",
         Event.callWaitForOperation op] ++ t ∧
      (∀ op2, Event.callWaitForOperation op2 ∉ t) ∧
      (∀ b2, Event.callUpdateExtension b2 ∉ t) := by
  unfold unpublishVersion at h
  by_cases h1 : c.strings flNamespace = ""
  · rw [checkFlag_empty c flNamespace h1] at h
    simp at h
  rw [checkFlag_nonempty c flNamespace h1] at h
  dsimp only at h
  by_cases h2 : c.strings flName = ""
  · rw [checkFlag_empty c flName h2] at h
    simp at h
  rw [checkFlag_nonempty c flName h2] at h
  dsimp only at h
  by_cases h3 : c.strings flVersion = ""
  · rw [checkFlag_empty c flVersion h3] at h
    simp at h
  rw [checkFlag_nonempty c flVersion h3] at h
  dsimp only at h
  by_cases h4 : c.strings flMgtURL = ""
  · rw [checkFlag_empty c flMgtURL h4] at h
    simp at h
  rw [checkFlag_nonempty c flMgtURL h4] at h
  dsimp only at h
  by_cases h5 : c.strings flSubsID = ""
  · rw [checkFlag_empty c flSubsID h5] at h
    simp at h
  rw [checkFlag_nonempty c flSubsID h5] at h
  dsimp only at h
  by_cases h6 : c.strings flSubsCert = ""
  · rw [checkFlag_empty c flSubsCert h6] at h
    simp at h
  rw [checkFlag_nonempty c flSubsCert h6] at h
  dsimp only at h
  rcases hmk : mkClient w (c.strings flMgtURL) (c.strings flSubsID) (c.strings flSubsCert)
    with ⟨t, r⟩
  rw [hmk] at h
  rcases r with _ | u
  · dsimp only at h
    rcases mkClient_mem w (c.strings flMgtURL) (c.strings flSubsID) (c.strings flSubsCert) _
        (by rw [hmk]; exact h) with h' | ⟨m, h'⟩ <;> simp at h'
  · cases u
    dsimp only at h
    have ht : t = [Event.readCertFile (c.strings flSubsCert)] :=
      mkClient_some_trace w _ _ _ t hmk
    subst ht
    have hrun := unpublishVersion_run c w h1 h2 h3 h4 h5 h6 hmk
    rcases hu : w.updateExtension
        (unpublishManifest (c.strings flNamespace) (c.strings flName)
          (c.strings flVersion) (c.bools flIsXMLExtension)) with e' | op'
    · rw [hu] at h
      simp at h
    · rw [hu] at h
      dsimp only at h
      rcases hwo : w.waitForOperation op' with e2 | u2 <;> rw [hwo] at h <;> simp at h <;>
        subst h
      · refine ⟨_, [Event.write OutStream.stderr ("UpdateExtension failed: " ++ e2)],
          hu, ?_, by simp, by simp⟩
        rw [hrun, hu]
        dsimp only
        rw [hwo]
        simp
      · refine ⟨_, [Event.write OutStream.stderr "UpdateExtension operation finished."],
          hu, ?_, by simp, by simp⟩
        rw [hrun, hu]
        dsimp only
        rw [hwo]
        simp

theorem c5_wait_only_after_update_witness :
    ∃ body t,
      sampleWorld.updateExtension body = Except.ok "op-1" ∧
      unpublishVersion sampleCtx sampleWorld =
        [Event.readCertFile (sampleCtx.strings flSubsCert),
         Event.callUpdateExtension body,
         Event.write OutStream.stderr "UpdateExtension operation started.",
         Event.callWaitForOperation "op-1"] ++ t ∧
      (∀ op2, Event.callWaitForOperation op2 ∉ t) ∧
      (∀ b2, Event.callUpdateExtension b2 ∉ t) :=
  c5_wait_only_after_update sampleCtx sampleWorld "op-1" (by
    rw [unpublishVersion_run sampleCtx sampleWorld (by decide) (by decide) (by decide)
        (by decide) (by decide) (by decide) rfl]
    simp [sampleWorld])

/-- C4 counterexample: a complete, successful replication-status run
issues a remote call yet never polls an asynchronous operation, refuting
the claim that every command (in particular replication-status) polls an
asynchronous operation until it completes. -/
theorem c4_counterexample_no_poll :
    (replicationStatus sampleCtx sampleWorld).any isRemoteCall = true ∧
    (replicationStatus sampleCtx sampleWorld).any isWaitCall = false := by
  rw [replicationStatus_run sampleCtx sampleWorld (by decide) (by decide) (by decide)
      (by decide) (by decide) (by decide) rfl]
  constructor <;> rfl

/-- C4 amended: each of the two commands parses its flags, reads the
management certificate and issues its remote calls; replication-status
issues exactly one HTTP call and performs no asynchronous polling, while
unpublish-version issues the UpdateExtension call and then exactly one
poll of the operation id that call returned. -/
theorem c4_flags_cert_calls (c : Context) (w : World)
    (hm : c.strings flMgtURL ≠ "") (hs : c.strings flSubsID ≠ "")
    (hc : c.strings flSubsCert ≠ "") (hns : c.strings flNamespace ≠ "")
    (hnm : c.strings flName ≠ "") (hv : c.strings flVersion ≠ "")
    (hmk : mkClient w (c.strings flMgtURL) (c.strings flSubsID) (c.strings flSubsCert) =
      ([Event.readCertFile (c.strings flSubsCert)], some ())) :
    Event.readCertFile (c.strings flSubsCert) ∈ replicationStatus c w ∧
    (replicationStatus c w).filter isRemoteCall =
      [Event.callGetReplicationStatus (c.strings flNamespace) (c.strings flName)
        (c.strings flVersion)] ∧
    (replicationStatus c w).filter isWaitCall = [] ∧
    Event.readCertFile (c.strings flSubsCert) ∈ unpublishVersion c w ∧
    (∀ op, w.updateExtension
        (unpublishManifest (c.strings flNamespace) (c.strings flName)
          (c.strings flVersion) (c.bools flIsXMLExtension)) = Except.ok op →
      (unpublishVersion c w).filter isRemoteCall =
        [Event.callUpdateExtension
          (unpublishManifest (c.strings flNamespace) (c.strings flName)
            (c.strings flVersion) (c.bools flIsXMLExtension)),
         Event.callWaitForOperation op]) := by
  have hrr := replicationStatus_run c w hm hs hc hns hnm hv hmk
  have hur := unpublishVersion_run c w hns hnm hv hm hs hc hmk
  refine ⟨?_, ?_, ?_, ?_, ?_⟩
  · rw [hrr]
    simp
  · rw [hrr]
    rcases hg : w.getReplicationStatus (c.strings flNamespace) (c.strings flName)
        (c.strings flVersion) with e | rs
    · simp [isRemoteCall]
    · by_cases hj : c.bools flJSON
      · rcases hms : w.marshalIndentStatuses rs.Statuses with e | s <;>
          simp [isRemoteCall, hj, hms]
      · simp [isRemoteCall, hj]
  · rw [hrr]
    rcases hg : w.getReplicationStatus (c.strings flNamespace) (c.strings flName)
        (c.strings flVersion) with e | rs
    · simp [isWaitCall]
    · by_cases hj : c.bools flJSON
      · rcases hms : w.marshalIndentStatuses rs.Statuses with e | s <;>
          simp [isWaitCall, hj, hms]
      · simp [isWaitCall, hj]
  · rw [hur]
    simp
  · intro op hu
    rw [hur, hu]
    dsimp only
    rcases hwo : w.waitForOperation op with e2 | u2 <;> simp [isRemoteCall]

theorem c4_flags_cert_calls_witness :
    Event.readCertFile (sampleCtx.strings flSubsCert) ∈
      replicationStatus sampleCtx sampleWorld ∧
    (replicationStatus sampleCtx sampleWorld).filter isRemoteCall =
      [Event.callGetReplicationStatus (sampleCtx.strings flNamespace)
        (sampleCtx.strings flName) (sampleCtx.strings flVersion)] ∧
    (replicationStatus sampleCtx sampleWorld).filter isWaitCall = [] ∧
    Event.readCertFile (sampleCtx.strings flSubsCert) ∈
      unpublishVersion sampleCtx sampleWorld ∧
    (∀ op, sampleWorld.updateExtension
        (unpublishManifest (sampleCtx.strings flNamespace) (sampleCtx.strings flName)
          (sampleCtx.strings flVersion) (sampleCtx.bools flIsXMLExtension)) = Except.ok op →
      (unpublishVersion sampleCtx sampleWorld).filter isRemoteCall =
        [Event.callUpdateExtension
          (unpublishManifest (sampleCtx.strings flNamespace) (sampleCtx.strings flName)
            (sampleCtx.strings flVersion) (sampleCtx.bools flIsXMLExtension)),
         Event.callWaitForOperation op]) :=
  c4_flags_cert_calls sampleCtx sampleWorld (by decide) (by decide) (by decide)
    (by decide) (by decide) (by decide) rfl

/-- The six required string flags of the two commands in scope. -/
def requiredFlags : List String :=
  [flNamespace, flName, flVersion, flMgtURL, flSubsID, flSubsCert]

theorem unpublish_empty_trace (c : Context) (w : World)
    (hflag : ∃ fl ∈ requiredFlags, c.strings fl = "") :
    ∃ fl ∈ requiredFlags, c.strings fl = "" ∧
      unpublishVersion c w = [Event.write OutStream.stderr (argMustBeProvided fl)] := by
  by_cases h1 : c.strings flNamespace = ""
  · refine ⟨flNamespace, by simp [requiredFlags], h1, ?_⟩
    unfold unpublishVersion
    rw [checkFlag_empty c flNamespace h1]
  by_cases h2 : c.strings flName = ""
  · refine ⟨flName, by simp [requiredFlags], h2, ?_⟩
    unfold unpublishVersion
    rw [checkFlag_nonempty c flNamespace h1]
    dsimp only
    rw [checkFlag_empty c flName h2]
  by_cases h3 : c.strings flVersion = ""
  · refine ⟨flVersion, by simp [requiredFlags], h3, ?_⟩
    unfold unpublishVersion
    rw [checkFlag_nonempty c flNamespace h1]
    dsimp only
    rw [checkFlag_nonempty c flName h2]
    dsimp only
    rw [checkFlag_empty c flVersion h3]
  by_cases h4 : c.strings flMgtURL = ""
  · refine ⟨flMgtURL, by simp [requiredFlags], h4, ?_⟩
    unfold unpublishVersion
    rw [checkFlag_nonempty c flNamespace h1]
    dsimp only
    rw [checkFlag_nonempty c flName h2]
    dsimp only
    rw [checkFlag_nonempty c flVersion h3]
    dsimp only
    rw [checkFlag_empty c flMgtURL h4]
  by_cases h5 : c.strings flSubsID = ""
  · refine ⟨flSubsID, by simp [requiredFlags], h5, ?_⟩
    unfold unpublishVersion
    rw [checkFlag_nonempty c flNamespace h1]
    dsimp only
    rw [checkFlag_nonempty c flName h2]
    dsimp only
    rw [checkFlag_nonempty c flVersion h3]
    dsimp only
    rw [checkFlag_nonempty c flMgtURL h4]
    dsimp only
    rw [checkFlag_empty c flSubsID h5]
  by_cases h6 : c.strings flSubsCert = ""
  · refine ⟨flSubsCert, by simp [requiredFlags], h6, ?_⟩
    unfold unpublishVersion
    rw [checkFlag_nonempty c flNamespace h1]
    dsimp only
    rw [checkFlag_nonempty c flName h2]
    dsimp only
    rw [checkFlag_nonempty c flVersion h3]
    dsimp only
    rw [checkFlag_nonempty c flMgtURL h4]
    dsimp only
    rw [checkFlag_nonempty c flSubsID h5]
    dsimp only
    rw [checkFlag_empty c flSubsCert h6]
  exfalso
  rcases hflag with ⟨fl, hfl, hempty⟩
  simp [requiredFlags] at hfl
  rcases hfl with rfl | rfl | rfl | rfl | rfl | rfl <;> contradiction

theorem replication_no_remote (c : Context) (w : World)
    (hflag : ∃ fl ∈ requiredFlags, c.strings fl = "") :
    ∀ e ∈ replicationStatus c w, isRemoteCall e = false := by
  intro e he
  unfold replicationStatus at he
  by_cases g4 : c.strings flMgtURL = ""
  · rw [checkFlag_empty c flMgtURL g4] at he
    simp at he
    subst he
    rfl
  rw [checkFlag_nonempty c flMgtURL g4] at he
  dsimp only at he
  by_cases g5 : c.strings flSubsID = ""
  · rw [checkFlag_empty c flSubsID g5] at he
    simp at he
    subst he
    rfl
  rw [checkFlag_nonempty c flSubsID g5] at he
  dsimp only at he
  by_cases g6 : c.strings flSubsCert = ""
  · rw [checkFlag_empty c flSubsCert g6] at he
    simp at he
    subst he
    rfl
  rw [checkFlag_nonempty c flSubsCert g6] at he
  dsimp only at he
  rcases hmk : mkClient w (c.strings flMgtURL) (c.strings flSubsID) (c.strings flSubsCert)
    with ⟨t, r⟩
  rw [hmk] at he
  rcases r with _ | u
  · dsimp only at he
    rcases mkClient_mem w (c.strings flMgtURL) (c.strings flSubsID) (c.strings flSubsCert) e
        (by rw [hmk]; exact he) with h | ⟨m, h⟩ <;> subst h <;> rfl
  · cases u
    dsimp only at he
    have ht := mkClient_some_trace w _ _ _ t hmk
    subst ht
    by_cases g1 : c.strings flNamespace = ""
    · rw [checkFlag_empty c flNamespace g1] at he
      simp at he
      rcases he with he | he <;> subst he <;> rfl
    rw [checkFlag_nonempty c flNamespace g1] at he
    dsimp only at he
    by_cases g2 : c.strings flName = ""
    · rw [checkFlag_empty c flName g2] at he
      simp at he
      rcases he with he | he <;> subst he <;> rfl
    rw [checkFlag_nonempty c flName g2] at he
    dsimp only at he
    by_cases g3 : c.strings flVersion = ""
    · rw [checkFlag_empty c flVersion g3] at he
      simp at he
      rcases he with he | he <;> subst he <;> rfl
    rw [checkFlag_nonempty c flVersion g3] at he
    dsimp only at he
    exfalso
    rcases hflag with ⟨fl, hfl, hempty⟩
    simp [requiredFlags] at hfl
    rcases hfl with rfl | rfl | rfl | rfl | rfl | rfl <;> contradiction

theorem stdoutWrites_mkClient (w : World) (m s cert : String) :
    stdoutWrites (mkClient w m s cert).1 = [] := by
  rw [stdoutWrites, List.filterMap_eq_nil_iff]
  intro e he
  rcases mkClient_mem w m s cert e he with h | ⟨msg, h⟩ <;> subst h <;> rfl

theorem replication_stdout_shape (c : Context) (w : World) :
    stdoutWrites (replicationStatus c w) = [] ∨
    ∃ rs, w.getReplicationStatus (c.strings flNamespace) (c.strings flName)
        (c.strings flVersion) = Except.ok rs ∧
      ((c.bools flJSON = true ∧ ∃ s, w.marshalIndentStatuses rs.Statuses = Except.ok s ∧
          stdoutWrites (replicationStatus c w) = [s]) ∨
       (c.bools flJSON = false ∧
          stdoutWrites (replicationStatus c w) =
            [w.renderTable ["Location", "Status"]
              (rs.Statuses.map fun s => [s.Location, s.Status])])) := by
  by_cases g4 : c.strings flMgtURL = ""
  · left
    unfold replicationStatus
    rw [checkFlag_empty c flMgtURL g4]
    rfl
  by_cases g5 : c.strings flSubsID = ""
  · left
    unfold replicationStatus
    rw [checkFlag_nonempty c flMgtURL g4]
    dsimp only
    rw [checkFlag_empty c flSubsID g5]
    rfl
  by_cases g6 : c.strings flSubsCert = ""
  · left
    unfold replicationStatus
    rw [checkFlag_nonempty c flMgtURL g4]
    dsimp only
    rw [checkFlag_nonempty c flSubsID g5]
    dsimp only
    rw [checkFlag_empty c flSubsCert g6]
    rfl
  rcases hmk : mkClient w (c.strings flMgtURL) (c.strings flSubsID) (c.strings flSubsCert)
    with ⟨t, r⟩
  have hts : stdoutWrites t = [] := by
    have h := stdoutWrites_mkClient w (c.strings flMgtURL) (c.strings flSubsID)
      (c.strings flSubsCert)
    rw [hmk] at h
    exact h
  rcases r with _ | u
  · left
    unfold replicationStatus
    rw [checkFlag_nonempty c flMgtURL g4]
    dsimp only
    rw [checkFlag_nonempty c flSubsID g5]
    dsimp only
    rw [checkFlag_nonempty c flSubsCert g6]
    dsimp only
    rw [hmk]
    exact hts
  · cases u
    have ht := mkClient_some_trace w _ _ _ t hmk
    subst ht
    by_cases g1 : c.strings flNamespace = ""
    · left
      unfold replicationStatus
      rw [checkFlag_nonempty c flMgtURL g4]
      dsimp only
      rw [checkFlag_nonempty c flSubsID g5]
      dsimp only
      rw [checkFlag_nonempty c flSubsCert g6]
      dsimp only
      rw [hmk]
      dsimp only
      rw [checkFlag_empty c flNamespace g1]
      rfl
    by_cases g2 : c.strings flName = ""
    · left
      unfold replicationStatus
      rw [checkFlag_nonempty c flMgtURL g4]
      dsimp only
      rw [checkFlag_nonempty c flSubsID g5]
      dsimp only
      rw [checkFlag_nonempty c flSubsCert g6]
      dsimp only
      rw [hmk]
      dsimp only
      rw [checkFlag_nonempty c flNamespace g1]
      dsimp only
      rw [checkFlag_empty c flName g2]
      rfl
    by_cases g3 : c.strings flVersion = ""
    · left
      unfold replicationStatus
      rw [checkFlag_nonempty c flMgtURL g4]
      dsimp only
      rw [checkFlag_nonempty c flSubsID g5]
      dsimp only
      rw [checkFlag_nonempty c flSubsCert g6]
      dsimp only
      rw [hmk]
      dsimp only
      rw [checkFlag_nonempty c flNamespace g1]
      dsimp only
      rw [checkFlag_nonempty c flName g2]
      dsimp only
      rw [checkFlag_empty c flVersion g3]
      rfl
    have hrun := replicationStatus_run c w g4 g5 g6 g1 g2 g3 hmk
    rcases hg : w.getReplicationStatus (c.strings flNamespace) (c.strings flName)
        (c.strings flVersion) with e | rs
    · left
      rw [hrun, hg]
      rfl
    · by_cases hj : c.bools flJSON
      · rcases hms : w.marshalIndentStatuses rs.Statuses with e | s
        · left
          rw [hrun, hg]
          simp [hj, hms, stdoutWrites]
        · right
          refine ⟨rs, rfl, Or.inl ⟨hj, s, hms, ?_⟩⟩
          rw [hrun, hg]
          simp [hj, hms, stdoutWrites]
      · right
        refine ⟨rs, rfl, Or.inr ⟨by simpa using hj, ?_⟩⟩
        rw [hrun, hg]
        simp [hj, stdoutWrites]

/-- C7 counterexample: with management-url, subscription-id and
subscription-cert set but `--namespace` empty, replication-status reads
the certificate file BEFORE the namespace flag check fires: the run's
first event is the certificate read and the flag error follows it,
refuting the claim that an empty required flag always fails before any
certificate is read. -/
theorem c7_counterexample_cert_read_first :
    replicationStatus noNamespaceCtx sampleWorld =
      [Event.readCertFile "cert.pem",
       Event.write OutStream.stderr (argMustBeProvided flNamespace)] := by
  rfl

/-- C7 amended: an empty required flag always aborts the run with the
checkFlag fatal error naming an empty flag (the first in the command's
check order) and no HTTP call is ever issued.  In unpublish-version the
whole run is that single fatal message, emitted before the certificate
is read.  In replication-status an empty management-url, subscription-id
or subscription-cert likewise aborts before the certificate is read,
while with those three set (and the client built) the certificate is
read FIRST and an empty namespace, name or version aborts immediately
after the read. -/
theorem c7_flag_checks (c : Context) (w : World) :
    ((∃ fl ∈ requiredFlags, c.strings fl = "") →
      (∀ e ∈ replicationStatus c w, isRemoteCall e = false) ∧
      (∀ e ∈ unpublishVersion c w, isRemoteCall e = false) ∧
      (∃ fl ∈ requiredFlags, c.strings fl = "" ∧
        unpublishVersion c w = [Event.write OutStream.stderr (argMustBeProvided fl)])) ∧
    ((∃ fl ∈ [flMgtURL, flSubsID, flSubsCert], c.strings fl = "") →
      ∃ fl ∈ [flMgtURL, flSubsID, flSubsCert], c.strings fl = "" ∧
        replicationStatus c w = [Event.write OutStream.stderr (argMustBeProvided fl)]) ∧
    (c.strings flMgtURL ≠ "" → c.strings flSubsID ≠ "" → c.strings flSubsCert ≠ "" →
      mkClient w (c.strings flMgtURL) (c.strings flSubsID) (c.strings flSubsCert) =
        ([Event.readCertFile (c.strings flSubsCert)], some ()) →
      (∃ fl ∈ [flNamespace, flName, flVersion], c.strings fl = "") →
      ∃ fl ∈ [flNamespace, flName, flVersion], c.strings fl = "" ∧
        replicationStatus c w =
          [Event.readCertFile (c.strings flSubsCert),
           Event.write OutStream.stderr (argMustBeProvided fl)]) := by
  refine ⟨?_, ?_, ?_⟩
  · intro hflag
    refine ⟨replication_no_remote c w hflag, ?_, unpublish_empty_trace c w hflag⟩
    intro e he
    rcases unpublish_empty_trace c w hflag with ⟨fl, hmem, hempty, heq⟩
    rw [heq] at he
    simp at he
    subst he
    rfl
  · intro hflag3
    by_cases g4 : c.strings flMgtURL = ""
    · refine ⟨flMgtURL, by simp, g4, ?_⟩
      unfold replicationStatus
      rw [checkFlag_empty c flMgtURL g4]
    by_cases g5 : c.strings flSubsID = ""
    · refine ⟨flSubsID, by simp, g5, ?_⟩
      unfold replicationStatus
      rw [checkFlag_nonempty c flMgtURL g4]
      dsimp only
      rw [checkFlag_empty c flSubsID g5]
    by_cases g6 : c.strings flSubsCert = ""
    · refine ⟨flSubsCert, by simp, g6, ?_⟩
      unfold replicationStatus
      rw [checkFlag_nonempty c flMgtURL g4]
      dsimp only
      rw [checkFlag_nonempty c flSubsID g5]
      dsimp only
      rw [checkFlag_empty c flSubsCert g6]
    exfalso
    rcases hflag3 with ⟨fl, hfl, hempty⟩
    simp at hfl
    rcases hfl with rfl | rfl | rfl <;> contradiction
  · intro hm hs hc hmk hflag3
    by_cases g1 : c.strings flNamespace = ""
    · refine ⟨flNamespace, by simp, g1, ?_⟩
      unfold replicationStatus
      rw [checkFlag_nonempty c flMgtURL hm]
      dsimp only
      rw [checkFlag_nonempty c flSubsID hs]
      dsimp only
      rw [checkFlag_nonempty c flSubsCert hc]
      dsimp only
      rw [hmk]
      dsimp only
      rw [checkFlag_empty c flNamespace g1]
      rfl
    by_cases g2 : c.strings flName = ""
    · refine ⟨flName, by simp, g2, ?_⟩
      unfold replicationStatus
      rw [checkFlag_nonempty c flMgtURL hm]
      dsimp only
      rw [checkFlag_nonempty c flSubsID hs]
      dsimp only
      rw [checkFlag_nonempty c flSubsCert hc]
      dsimp only
      rw [hmk]
      dsimp only
      rw [checkFlag_nonempty c flNamespace g1]
      dsimp only
      rw [checkFlag_empty c flName g2]
      rfl
    by_cases g3 : c.strings flVersion = ""
    · refine ⟨flVersion, by simp, g3, ?_⟩
      unfold replicationStatus
      rw [checkFlag_nonempty c flMgtURL hm]
      dsimp only
      rw [checkFlag_nonempty c flSubsID hs]
      dsimp only
      rw [checkFlag_nonempty c flSubsCert hc]
      dsimp only
      rw [hmk]
      dsimp only
      rw [checkFlag_nonempty c flNamespace g1]
      dsimp only
      rw [checkFlag_nonempty c flName g2]
      dsimp only
      rw [checkFlag_empty c flVersion g3]
      rfl
    exfalso
    rcases hflag3 with ⟨fl, hfl, hempty⟩
    simp at hfl
    rcases hfl with rfl | rfl | rfl <;> contradiction

theorem c7_flag_checks_witness :
    (∀ e ∈ replicationStatus noNamespaceCtx sampleWorld, isRemoteCall e = false) ∧
    (∃ fl ∈ requiredFlags, noNamespaceCtx.strings fl = "" ∧
      unpublishVersion noNamespaceCtx sampleWorld =
        [Event.write OutStream.stderr (argMustBeProvided fl)]) ∧
    (∃ fl ∈ [flMgtURL, flSubsID, flSubsCert], noMgtURLCtx.strings fl = "" ∧
      replicationStatus noMgtURLCtx sampleWorld =
        [Event.write OutStream.stderr (argMustBeProvided fl)]) ∧
    (∃ fl ∈ [flNamespace, flName, flVersion], noNamespaceCtx.strings fl = "" ∧
      replicationStatus noNamespaceCtx sampleWorld =
        [Event.readCertFile (noNamespaceCtx.strings flSubsCert),
         Event.write OutStream.stderr (argMustBeProvided fl)]) := by
  have h := c7_flag_checks noNamespaceCtx sampleWorld
  have hb := c7_flag_checks noMgtURLCtx sampleWorld
  have h1 := h.1 ⟨flNamespace, by simp [requiredFlags], rfl⟩
  exact ⟨h1.1, h1.2.2,
    hb.2.1 ⟨flMgtURL, by simp, rfl⟩,
    h.2.2 (by decide) (by decide) (by decide) rfl ⟨flNamespace, by simp, rfl⟩⟩

/-- C10: data output and diagnostics never share a stream:
unpublish-version writes nothing to stdout, and the stdout content of
replication-status is either empty (any failing run) or exactly the one
formatted payload — the JSON marshalling when `--json` is set, the
rendered table otherwise.  Every logrus message in the model is a stderr
write, as `init` in main.go binds the logger to stderr. -/
theorem c10_stream_separation (c : Context) (w : World) :
    stdoutWrites (unpublishVersion c w) = [] ∧
    (stdoutWrites (replicationStatus c w) = [] ∨
      ∃ rs, w.getReplicationStatus (c.strings flNamespace) (c.strings flName)
          (c.strings flVersion) = Except.ok rs ∧
        ((c.bools flJSON = true ∧ ∃ s, w.marshalIndentStatuses rs.Statuses = Except.ok s ∧
            stdoutWrites (replicationStatus c w) = [s]) ∨
         (c.bools flJSON = false ∧
            stdoutWrites (replicationStatus c w) =
              [w.renderTable ["Location", "Status"]
                (rs.Statuses.map fun s => [s.Location, s.Status])]))) := by
  constructor
  · rw [stdoutWrites, List.filterMap_eq_nil_iff]
    intro e he
    rcases unpublish_mem_cases c w e he with h | ⟨m, h⟩ | h | ⟨op, h, _⟩ <;> subst h <;> rfl
  · exact replication_stdout_shape c w
